import Mathlib

/-!
Shallow embedding of the sponsorblock-mirror core (routes.rs, structs.rs,
models.rs, main.rs).

Modelling conventions:
* `f32` offsets are modelled as exact rationals (`Rat`); all concrete inputs used
  below are small integers or ratios that are exact in `f32` as well.
* `i32` / `i64` counters are modelled as `Int`; the code only compares them.
* `SystemTime` is modelled as `Nat`, with `0` playing the role of `UNIX_EPOCH`.
* The relational store, the JSON parser of the categories parameter
  (`serde_json::from_str::<Vec<String>>`) and the origin HTTP call are external
  collaborators; they are passed in as function parameters (oracles).
* A Rust panic (an `unwrap` failure) is modelled as `Option.none` propagating
  out of the function.
* The iteration order of `HashMap::into_values` is unspecified in Rust; it is
  passed in as an explicit key-order parameter `iter`.
-/

attribute [local semireducible] Rat.mul Rat.inv Rat.add Rat.sub

namespace SBM

/-- Mirrors `SponsorTime` of models.rs: one raw stored record. -/
structure SponsorTime where
  video_id : String
  start_time : Rat
  end_time : Rat
  votes : Int
  locked : Int
  incorrect_votes : Int
  uuid : String
  user_id : String
  time_submitted : Int
  views : Int
  category : String
  action_type : String
  service : String
  video_duration : Rat
  hidden : Int
  reputation : Rat
  shadow_hidden : Int
  hashed_video_id : String
  user_agent : String
  description : String
deriving Repr, DecidableEq

/-- Mirrors `Segment` of structs.rs. The two-element vector
`segment: vec![start_time, end_time]` is modelled as a pair, so
`segment.1` stands for `segment[0]` and `segment.2` for `segment[1]`. -/
structure Segment where
  uuid : String
  action_type : String
  category : String
  description : String
  locked : Int
  segment : Rat × Rat
  user_id : String
  video_duration : Rat
  votes : Int
deriving Repr, DecidableEq

/-- Mirrors `Sponsor` of structs.rs. -/
structure Sponsor where
  hash : String
  video_id : String
  segments : List Segment
deriving Repr, DecidableEq

/-- Mirrors the `PartialEq for Segment` impl of structs.rs: equality is by
`uuid` only.  Used by `Vec::contains` in `find_skip_segments`. -/
def segment_eq (a b : Segment) : Bool :=
  a.uuid == b.uuid

/-- Mirrors the `PartialOrd for Segment` impl of structs.rs: ordering is by
`segment[0]` (start offset) only. -/
def segment_le (a b : Segment) : Prop :=
  a.segment.1 ≤ b.segment.1

instance : DecidableRel segment_le :=
  fun a b => inferInstanceAs (Decidable (a.segment.1 ≤ b.segment.1))

/-- Mirrors `build_segment` of routes.rs. -/
def build_segment (s : SponsorTime) : Segment :=
  { uuid := s.uuid
    action_type := s.action_type
    category := s.category
    description := s.description
    locked := s.locked
    segment := (s.start_time, s.end_time)
    user_id := s.user_id
    video_duration := s.video_duration
    votes := s.votes }

/-- Mirrors `is_overlap` of routes.rs.  Note the strict-containment shortcut
tests a single direction: the interval of `seg` strictly inside
`(start, stop)`.  The decimal thresholds 0.8, 0.6, 0.1 are modelled as the
exact rationals 8/10, 6/10, 1/10. -/
def is_overlap (seg : Segment) (cat action_type : String) (start stop : Rat) : Bool :=
  if seg.category ≠ cat then
    false
  else if seg.segment.1 > start ∧ seg.segment.2 < stop then
    true
  else
    let overlap := min seg.segment.2 stop - max seg.segment.1 start
    let duration := max seg.segment.2 stop - min seg.segment.1 start
    decide (overlap / duration >
      (if cat = "chapter" then (8 : Rat) / 10
       else if seg.action_type = action_type then (6 : Rat) / 10
       else (1 : Rat) / 10))

/-- Mirrors `similar_segments` of routes.rs: scan the whole result vector, in
retrieval order, for records of the same video overlapping the candidate,
skipping the record with the same uuid as the candidate. -/
def similar_segments (segment : Segment) (hash : String) (segments : List SponsorTime) :
    List Segment :=
  segments.filterMap fun seg =>
    if seg.uuid = segment.uuid then none
    else if seg.hashed_video_id ≠ hash then none
    else if is_overlap segment seg.category seg.action_type seg.start_time seg.end_time then
      some (build_segment seg)
    else none

/-- The loop of `best_segment` of routes.rs: running best and running best
vote count, replaced only on a strictly greater vote count. -/
def best_loop (best : Segment) (best_votes : Int) : List Segment → Segment
  | [] => best
  | s :: rest =>
    if s.votes > best_votes then best_loop s s.votes rest
    else best_loop best best_votes rest

/-- Mirrors `best_segment` of routes.rs.  Indexing `segments[0]` panics on an
empty vector; that panic is modelled as `none` (every caller passes a
non-empty vector). -/
def best_segment : List Segment → Option Segment
  | [] => none
  | s0 :: rest => some (best_loop s0 s0.votes (s0 :: rest))

/-- Association-list lookup, modelling `HashMap::get` / the read side of the
entry API (a hash map keyed by `hashedVideoID`). -/
def mapGet : List (String × Sponsor) → String → Option Sponsor
  | [], _ => none
  | (k0, v) :: rest, k => if k0 = k then some v else mapGet rest k

/-- Association-list update-or-append, modelling the write side of the
`HashMap::entry(..).or_insert(..)` API plus in-place mutation of the entry. -/
def mapSet : List (String × Sponsor) → String → Sponsor → List (String × Sponsor)
  | [], k, v => [(k, v)]
  | (k0, v0) :: rest, k, v =>
    if k0 = k then (k, v) :: rest else (k0, v0) :: mapSet rest k v

/-- One iteration of the `for result in &results` loop of
`find_skip_segments` of routes.rs: fetch or create the Sponsor entry for the
video, discard the candidate when it overlaps an already accepted segment,
otherwise cluster, pick the best cluster member and append it unless a segment
with the same uuid is already present. -/
def process_result (results : List SponsorTime) (m : List (String × Sponsor))
    (r : SponsorTime) : List (String × Sponsor) :=
  let hash := r.hashed_video_id
  let sponsor := (mapGet m hash).getD { hash := hash, video_id := r.video_id, segments := [] }
  let segment := build_segment r
  if sponsor.segments.any fun seg =>
      is_overlap segment seg.category seg.action_type seg.segment.1 seg.segment.2 then
    mapSet m hash sponsor
  else
    match best_segment (similar_segments segment hash results ++ [segment]) with
    | none => mapSet m hash sponsor
    | some best =>
      if sponsor.segments.any fun s => segment_eq s best then
        mapSet m hash sponsor
      else
        mapSet m hash { sponsor with segments := sponsor.segments ++ [best] }

/-- The full record loop of `find_skip_segments` of routes.rs, producing the
Sponsor map (keyed by `hashedVideoID`, association order = first-touch order). -/
def reconcile (results : List SponsorTime) : List (String × Sponsor) :=
  results.foldl (process_result results) []

/-- Mirrors `sponsor.segments.sort_by(|a, b| a.partial_cmp(b).unwrap())` of
routes.rs.  `Vec::sort_by` is a stable sort; it is modelled by the stable
`List.insertionSort` on the start-offset order of `PartialOrd for Segment`. -/
def sort_segments (sp : Sponsor) : Sponsor :=
  { sp with segments := sp.segments.insertionSort segment_le }

/-- The Sponsor map after the per-video sorting pass of routes.rs. -/
def sorted_map (results : List SponsorTime) : List (String × Sponsor) :=
  (reconcile results).map fun kv => (kv.1, sort_segments kv.2)

/-- Mirrors the tail of `find_skip_segments` of routes.rs:
`sponsors.into_values().collect()`.  `iter` is the (unspecified) iteration
order of the hash map: a list of keys, each value being emitted once when
`iter` enumerates each key of the map exactly once. -/
def sorted_sponsors (iter : List String) (results : List SponsorTime) : List Sponsor :=
  iter.filterMap fun k => mapGet (sorted_map results) k

/-- The default categories string of routes.rs. -/
def defaultCategories : String := "[\"sponsor\"]"

/-- Mirrors the whole `find_skip_segments` of routes.rs.
`parse` models `serde_json::from_str::<Vec<String>>` (an external library);
`none` models a parse error, on which the code calls `unwrap` and panics
(modelled as result `none`).  `db` models the store query (the SQL is the same
for both `VideoName` shapes up to the WHERE clause, which is part of the
oracle).  An empty category list short-circuits to an empty result before any
store query. -/
def find_skip_segments (parse : String → Option (List String)) (categories : Option String)
    (db : List String → List SponsorTime) (iter : List String) : Option (List Sponsor) :=
  match parse (categories.getD defaultCategories) with
  | none => none
  | some cat =>
    if cat.isEmpty then some []
    else some (sorted_sponsors iter (db cat))

/-- ASCII lowercasing, modelling `str::to_lowercase` of the hash path segment.
(The Rust function is Unicode-aware, but no non-ASCII character lowercases to
an ASCII hex digit, so the two agree on the regex test below.) -/
def toLowercase (s : String) : String :=
  String.mk (s.data.map Char.toLower)

/-- Whether a character is in the class `[0-9a-f]`. -/
def is_hex_lower (c : Char) : Bool :=
  (decide (48 ≤ c.toNat) && decide (c.toNat ≤ 57)) ||
    (decide (97 ≤ c.toNat) && decide (c.toNat ≤ 102))

/-- Mirrors the anchored regex `HASH_RE` = `[0-9a-f]` exactly four times,
anchored at both ends, of routes.rs. -/
def hashRe (s : String) : Bool :=
  s.length == 4 && s.data.all is_hex_lower

/-- The HTTP outcomes of the `skip_segments` handler that the claims talk
about: a 400 with a body, a 200 with locally reconciled Sponsors, or a 200
relaying the origin body. -/
inductive Response where
  | badRequest (body : String)
  | okJson (sponsors : List Sponsor)
  | okOrigin (body : String)
deriving Repr, DecidableEq

/-- Mirrors the `skip_segments` handler of routes.rs (hash-prefix route):
lowercase the path segment, reject on regex mismatch, resolve locally, fall
back to the origin service on an empty local result.  `origin` models the
origin HTTP call, taking the hash and the raw categories string used to build
the upstream URL; a resolver panic propagates as `none`. -/
def skip_segments (parse : String → Option (List String)) (path : String)
    (categories : Option String) (db : List String → List SponsorTime)
    (iter : List String) (origin : String → String → String) : Option Response :=
  let hash := toLowercase path
  if !(hashRe hash) then
    some (Response.badRequest "Hash prefix does not match format requirements.")
  else
    match find_skip_segments parse categories db iter with
    | none => none
    | some sponsors =>
      if sponsors.isEmpty then
        some (Response.okOrigin (origin hash (categories.getD defaultCategories)))
      else
        some (Response.okJson sponsors)

/-! ## The reload pipeline of main.rs

`background_database_task` is an infinite timer loop; one iteration of the
loop body (one tick) is modelled as a pure transition on a mirror state.  The
Postgres transaction is modelled by running the five statements on a copy of
the database state: commit installs the copy, any statement failure leads to a
rollback, i.e. the copy is discarded.  Statement failures that depend on the
outside world (permissions, disk, malformed file rows) are oracle booleans in
the tick environment; structural preconditions (a referenced table must
exist) are modelled directly. -/

/-- The two tables: `live` is `sponsorTimes`, `temp` is `sponsorTimesTemp`.
`none` means the table does not exist; rows are lists of column strings. -/
structure DbState where
  live : Option (List (List String))
  temp : Option (List (List String))
deriving Repr, DecidableEq

/-- The state shared across ticks: the database plus `LAST_UPDATE`
(`0` models `UNIX_EPOCH`, the initial sentinel). -/
structure MirrorState where
  db : DbState
  last_update : Nat
deriving Repr, DecidableEq

/-- Everything one tick reads from the outside world. -/
structure TickEnv where
  file_exists : Bool
  elapsed_ok : Bool
  mtime : Nat
  file_rows : List (List String)
  begin_ok : Bool
  drop_temp_ok : Bool
  create_temp_ok : Bool
  copy_ok : Bool
  drop_orig_ok : Bool
  rename_ok : Bool
  commit_ok : Bool
deriving Repr, DecidableEq

/-- What one tick reports: whether a transaction was started and whether it
was committed. -/
structure TickResult where
  txn_attempted : Bool
  committed : Bool
deriving Repr, DecidableEq

/-- The five statements of the import transaction of main.rs, run on a
transaction-local copy of the database state: DROP TABLE IF EXISTS temp,
CREATE temp LIKE live, COPY the file rows into temp, DROP live,
RENAME temp TO live.  `none` models a statement error (which aborts the
transaction). -/
def run_steps (env : TickEnv) (db : DbState) : Option DbState := do
  let db1 ← if env.drop_temp_ok then some { db with temp := none } else none
  let db2 ← if env.create_temp_ok && db1.live.isSome then
      some { db1 with temp := some [] } else none
  let db3 ← if env.copy_ok && db2.temp.isSome then
      some { db2 with temp := some ((db2.temp.getD []) ++ env.file_rows) } else none
  let db4 ← if env.drop_orig_ok && db3.live.isSome then
      some { db3 with live := none } else none
  if env.rename_ok && db4.temp.isSome && db4.live.isNone then
    some { db4 with live := db4.temp, temp := none }
  else none

/-- One tick of `background_database_task` of main.rs.  Guard order follows
the code: file existence plus throttle, then the modification-time
comparison, then begin / five statements / commit.  The post-commit VACUUM
does not change the logical table contents and any VACUUM failure is only
logged, so it has no effect on this state.  On success `LAST_UPDATE` is set
to the modification time of the file (`env.mtime`), never to wall-clock
time. -/
def tick (env : TickEnv) (st : MirrorState) : MirrorState × TickResult :=
  if env.file_exists && (st.last_update == 0 || env.elapsed_ok) then
    if st.last_update == 0 || decide (st.last_update < env.mtime) then
      if env.begin_ok then
        match run_steps env st.db with
        | some txn =>
          if env.commit_ok then
            ({ db := txn, last_update := env.mtime }, { txn_attempted := true, committed := true })
          else
            (st, { txn_attempted := true, committed := false })
        | none =>
          (st, { txn_attempted := true, committed := false })
      else
        (st, { txn_attempted := true, committed := false })
    else
      (st, { txn_attempted := false, committed := false })
  else
    (st, { txn_attempted := false, committed := false })

/-! ## Concrete data used by counterexamples and witnesses -/

/-- A stored record: video `videoA1` (hash `h1`), interval [10, 20],
category `sponsor`, action `skip`, 5 votes. -/
def rA : SponsorTime :=
  { video_id := "videoA1", start_time := 10, end_time := 20, votes := 5, locked := 0,
    incorrect_votes := 0, uuid := "uA", user_id := "user1", time_submitted := 0, views := 0,
    category := "sponsor", action_type := "skip", service := "YouTube", video_duration := 100,
    hidden := 0, reputation := 0, shadow_hidden := 0, hashed_video_id := "h1",
    user_agent := "", description := "" }

/-- Same video and interval as `rA`, same vote count, different uuid. -/
def rB : SponsorTime := { rA with uuid := "uB" }

/-- A record of a second video (hash `h2`). -/
def rC : SponsorTime := { rA with uuid := "uC", video_id := "videoA2", hashed_video_id := "h2" }

/-- A candidate segment spanning [0, 100], category `sponsor`, action `skip`. -/
def sWide : Segment :=
  { uuid := "uW", action_type := "skip", category := "sponsor", description := "",
    locked := 0, segment := (0, 100), user_id := "", video_duration := 0, votes := 0 }

/-- A candidate segment spanning [10, 20], category `sponsor`, action `skip`, 5 votes. -/
def sA : Segment := build_segment rA

/-- Same as `sA` but uuid `uB2` and 7 votes. -/
def sB : Segment := { sA with uuid := "uB2", votes := 7 }

/-- Parse oracle returning a fixed singleton category list on every input. -/
def parseAllSponsor : String → Option (List String) := fun _ => some ["sponsor"]

/-- Parse oracle accepting exactly the two strings the tests feed it. -/
def parseEmptyOrDefault : String → Option (List String) := fun s =>
  if s = "[]" then some [] else if s = defaultCategories then some ["sponsor"] else none

/-- Parse oracle failing on every input (models invalid JSON). -/
def parseFail : String → Option (List String) := fun _ => none

/-- Store oracle returning the single record `rA` for every category list. -/
def dbOne : List String → List SponsorTime := fun _ => [rA]

/-- Origin oracle returning the fixed body `ORIGIN`. -/
def originConst : String → String → String := fun _ _ => "ORIGIN"

/-! ## Claims about the overlap test -/

/-- Claim C1, counterexample.  The claim says strict containment in either
direction makes the overlap test succeed unconditionally.  Here the interval
(49, 51) of the other record is strictly contained in the interval (0, 100)
of the candidate `sWide` (same category, same action type), yet `is_overlap`
returns `false`: the containment shortcut only tests the candidate being
inside the other interval, and the ratio 2/100 does not exceed the 6/10
threshold. -/
theorem C1_counterexample :
    sWide.category = "sponsor" ∧ sWide.action_type = "skip" ∧
    sWide.segment.1 < 49 ∧ 51 < sWide.segment.2 ∧
    is_overlap sWide "sponsor" "skip" 49 51 = false := by
  decide

/-- Claim C1, amended: only one direction of strict containment is special:
when the interval of the candidate `seg` is strictly inside the other
interval (`seg.segment[0] > start` and `seg.segment[1] < stop`), the overlap
test returns `true` unconditionally, for any vote counts and action types.
Containment in the opposite direction gets no shortcut and falls through to
the ratio threshold test. -/
theorem C1_amended (seg : Segment) (cat action_type : String) (start stop : Rat)
    (hcat : seg.category = cat) (hs : seg.segment.1 > start) (he : seg.segment.2 < stop) :
    is_overlap seg cat action_type start stop = true := by
  unfold is_overlap
  rw [if_neg (by simp [hcat]), if_pos ⟨hs, he⟩]

/-- Witness for `C1_amended` at a concrete input: the candidate spans
[10, 20] strictly inside (0, 100), with differing action types. -/
theorem C1_amended_witness :
    is_overlap sA "sponsor" "mute" 0 100 = true :=
  C1_amended sA "sponsor" "mute" 0 100 rfl (by decide) (by decide)

/-- Claim C2, confirmed: for same-category records where neither interval
strictly contains the other, the overlap test returns `true` exactly when
overlap/span strictly exceeds the threshold: 8/10 for category `chapter`,
else 6/10 when the action types agree, else 1/10. -/
theorem C2 (seg : Segment) (cat action_type : String) (start stop : Rat)
    (hcat : seg.category = cat)
    (hnc1 : ¬(seg.segment.1 > start ∧ seg.segment.2 < stop))
    (_hnc2 : ¬(start > seg.segment.1 ∧ stop < seg.segment.2)) :
    (is_overlap seg cat action_type start stop = true ↔
      (min seg.segment.2 stop - max seg.segment.1 start) /
          (max seg.segment.2 stop - min seg.segment.1 start) >
        (if cat = "chapter" then (8 : Rat) / 10
         else if seg.action_type = action_type then (6 : Rat) / 10
         else (1 : Rat) / 10)) := by
  unfold is_overlap
  rw [if_neg (by simp [hcat]), if_neg hnc1]
  exact decide_eq_true_iff

/-- Witness for `C2` at a concrete input: [10, 20] against (12, 25), same
category and action type; neither contains the other, the ratio is 8/15,
which does not exceed 6/10, and indeed the test returns `false`. -/
theorem C2_witness :
    (is_overlap sA "sponsor" "skip" 12 25 = true ↔
      (min sA.segment.2 25 - max sA.segment.1 12) /
          (max sA.segment.2 25 - min sA.segment.1 12) >
        (if "sponsor" = "chapter" then (8 : Rat) / 10
         else if sA.action_type = "skip" then (6 : Rat) / 10
         else (1 : Rat) / 10)) :=
  C2 sA "sponsor" "skip" 12 25 rfl (by decide) (by decide)

/-! ## Claims about representative selection -/

/-- The loop of `best_segment` returns the first maximum: the scanned list
with the running best prepended splits around the result, every element
strictly before the result has strictly fewer votes, and no element has more
votes than the result. -/
theorem best_loop_first_max (l : List Segment) : ∀ b : Segment,
    (∃ p q, b :: l = p ++ best_loop b b.votes l :: q ∧
        ∀ x ∈ p, x.votes < (best_loop b b.votes l).votes) ∧
    ∀ x ∈ b :: l, x.votes ≤ (best_loop b b.votes l).votes := by
  induction l with
  | nil =>
    intro b
    refine ⟨⟨[], [], rfl, by simp⟩, ?_⟩
    intro x hx
    simp only [best_loop, List.mem_singleton] at hx ⊢
    exact hx ▸ le_refl _
  | cons s rest ih =>
    intro b
    by_cases hsb : s.votes > b.votes
    · have hrw : best_loop b b.votes (s :: rest) = best_loop s s.votes rest := by
        simp [best_loop, hsb]
      rw [hrw]
      obtain ⟨⟨p, q, hdec, hlt⟩, hle⟩ := ih s
      have hbr : b.votes < (best_loop s s.votes rest).votes :=
        lt_of_lt_of_le hsb (hle s (List.mem_cons_self s rest))
      refine ⟨⟨b :: p, q, ?_, ?_⟩, ?_⟩
      · rw [List.cons_append, ← hdec]
      · intro x hx
        rcases List.mem_cons.mp hx with hx | hx
        · exact hx ▸ hbr
        · exact hlt x hx
      · intro x hx
        rcases List.mem_cons.mp hx with hx | hx
        · exact hx ▸ le_of_lt hbr
        · exact hle x hx
    · have hrw : best_loop b b.votes (s :: rest) = best_loop b b.votes rest := by
        simp [best_loop, hsb]
      rw [hrw]
      obtain ⟨⟨p, q, hdec, hlt⟩, hle⟩ := ih b
      have hsble : s.votes ≤ b.votes := le_of_not_lt hsb
      have hble : b.votes ≤ (best_loop b b.votes rest).votes :=
        hle b (List.mem_cons_self b rest)
      cases p with
      | nil =>
        simp only [List.nil_append] at hdec
        have hr : best_loop b b.votes rest = b := (List.cons.injEq _ _ _ _ ▸ hdec).1.symm
        refine ⟨⟨[], s :: rest, by simp [hr], by simp⟩, ?_⟩
        intro x hx
        rcases List.mem_cons.mp hx with hx | hx
        · exact hx ▸ hble
        · rcases List.mem_cons.mp hx with hx | hx
          · exact hx ▸ le_trans hsble hble
          · exact hle x (List.mem_cons_of_mem b hx)
      | cons b0 p2 =>
        simp only [List.cons_append, List.cons.injEq] at hdec
        obtain ⟨hb0, hrest⟩ := hdec
        have hbmem : b ∈ b0 :: p2 := hb0 ▸ List.mem_cons_self b0 p2
        have hblt : b.votes < (best_loop b b.votes rest).votes := hlt b hbmem
        refine ⟨⟨b :: s :: p2, q, ?_, ?_⟩, ?_⟩
        · rw [List.cons_append, List.cons_append, ← hrest]
        · intro x hx
          rcases List.mem_cons.mp hx with hx | hx
          · exact hx ▸ hblt
          · rcases List.mem_cons.mp hx with hx | hx
            · exact hx ▸ lt_of_le_of_lt hsble hblt
            · exact hlt x (List.mem_cons_of_mem b0 hx)
        · intro x hx
          rcases List.mem_cons.mp hx with hx | hx
          · exact hx ▸ hble
          · rcases List.mem_cons.mp hx with hx | hx
            · exact hx ▸ le_trans hsble hble
            · exact hle x (List.mem_cons_of_mem b hx)

/-- Claim C3, counterexample.  Records `rA` and `rB` describe the same
interval of the same video with equal vote counts; `rA` is the candidate
(first in retrieval order).  The claim says the tie is broken in favour of
the candidate (`uA`), but the code appends the candidate last to the cluster
vector, so the overlapping record `uB` wins the tie and is the retained
representative. -/
theorem C3_counterexample :
    rA.votes = rB.votes ∧
    (sorted_sponsors ["h1"] [rA, rB]).map (fun sp => sp.segments.map fun s => s.uuid) =
      [["uB"]] := by
  decide

/-- Claim C3, amended: the retained representative returned by
`best_segment` has a vote count greater than or equal to every cluster
member, and ties are broken by position in the cluster vector — the
cluster vector consists of the overlapping records in retrieval order with
the candidate appended last, and the first member attaining the maximum wins
(so on a tie the candidate loses to an overlapping record). -/
theorem C3_amended (l : List Segment) (r : Segment) (h : best_segment l = some r) :
    (∀ x ∈ l, x.votes ≤ r.votes) ∧
    ∃ p q, l = p ++ r :: q ∧ ∀ x ∈ p, x.votes < r.votes := by
  match l, h with
  | s0 :: rest, h =>
    have hr : best_loop s0 s0.votes (s0 :: rest) = r := by
      simpa [best_segment] using h
    obtain ⟨⟨p, q, hdec, hlt⟩, hle⟩ := best_loop_first_max (s0 :: rest) s0
    rw [hr] at hdec hlt hle
    refine ⟨fun x hx => hle x (List.mem_cons_of_mem s0 hx), ?_⟩
    cases p with
    | nil =>
      simp only [List.nil_append] at hdec
      obtain ⟨hs0, -⟩ := List.cons.injEq _ _ _ _ ▸ hdec
      exact ⟨[], rest, by rw [List.nil_append, hs0], by simp⟩
    | cons b0 p2 =>
      simp only [List.cons_append, List.cons.injEq] at hdec
      obtain ⟨-, hrest⟩ := hdec
      exact ⟨p2, q, hrest, fun x hx => hlt x (List.mem_cons_of_mem b0 hx)⟩

/-- Witness for `C3_amended` at a concrete input: in the cluster vector
[sA, sB] the second member has strictly more votes and is selected. -/
theorem C3_amended_witness :
    (∀ x ∈ [sA, sB], x.votes ≤ sB.votes) ∧
    ∃ p q, [sA, sB] = p ++ sB :: q ∧ ∀ x ∈ p, x.votes < sB.votes :=
  C3_amended [sA, sB] sB (by decide)

/-! ## Claims about the reload pipeline -/

/-- Claim C4, confirmed: whenever any of the five statements of the import
transaction fails, or the commit itself fails, the tick leaves the whole
mirror state untouched — the live table and its rows are exactly the
pre-attempt ones and the `LAST_UPDATE` timestamp is not mutated — and the
tick ends uncommitted.  (On the success path `tick` sets the timestamp to
the modification time of the snapshot file, `env.mtime`, never to wall-clock
time, as is visible in its definition.) -/
theorem C4 (env : TickEnv) (st : MirrorState)
    (hfail : run_steps env st.db = none ∨ env.commit_ok = false) :
    (tick env st).1 = st ∧ (tick env st).2.committed = false := by
  unfold tick
  rcases hfail with hfail | hfail <;>
    cases hfe : (env.file_exists && (st.last_update == 0 || env.elapsed_ok)) <;>
    cases hnew : (st.last_update == 0 || decide (st.last_update < env.mtime)) <;>
    cases hbeg : env.begin_ok <;>
    simp [hfe, hnew, hbeg, hfail] <;>
    rcases hrun : run_steps env st.db with - | txn <;>
    simp [hrun, hfail] at *

/-- A state whose live table holds one row. -/
def stLive : MirrorState :=
  { db := { live := some [["row1"]], temp := none }, last_update := 5 }

/-- An environment whose bulk-load (COPY) statement fails. -/
def envCopyFail : TickEnv :=
  { file_exists := true, elapsed_ok := true, mtime := 9, file_rows := [["row2"]],
    begin_ok := true, drop_temp_ok := true, create_temp_ok := true, copy_ok := false,
    drop_orig_ok := true, rename_ok := true, commit_ok := true }

/-- Witness for `C4` at a concrete input: the COPY step fails, the live
table and timestamp survive unchanged. -/
theorem C4_witness :
    (tick envCopyFail stLive).1 = stLive ∧ (tick envCopyFail stLive).2.committed = false :=
  C4 envCopyFail stLive (Or.inl (by decide))

/-- Claim C5, confirmed: on a tick where a prior successful import exists
(`last_update` is not the epoch sentinel) and the snapshot modification time
is not strictly newer than it, no import transaction is attempted and the
state is left unchanged. -/
theorem C5 (env : TickEnv) (st : MirrorState)
    (hprior : st.last_update ≠ 0) (hstale : env.mtime ≤ st.last_update) :
    (tick env st).1 = st ∧ (tick env st).2.txn_attempted = false := by
  unfold tick
  have h0 : (st.last_update == 0) = false := by
    simpa using hprior
  have hlt : decide (st.last_update < env.mtime) = false := by
    simpa using Nat.not_lt.mpr hstale
  cases hfe : (env.file_exists && (st.last_update == 0 || env.elapsed_ok)) <;>
    simp [hfe, h0, hlt]

/-- An environment whose snapshot file is stale (mtime 3 while the state
records a later success at 5). -/
def envStale : TickEnv :=
  { file_exists := true, elapsed_ok := true, mtime := 3, file_rows := [["row2"]],
    begin_ok := true, drop_temp_ok := true, create_temp_ok := true, copy_ok := true,
    drop_orig_ok := true, rename_ok := true, commit_ok := true }

/-- Witness for `C5` at a concrete input. -/
theorem C5_witness :
    (tick envStale stLive).1 = stLive ∧ (tick envStale stLive).2.txn_attempted = false :=
  C5 envStale stLive (by decide) (by decide)

/-! ## Claims about the query resolver -/

/-- Claim C6, counterexample.  The claim quantifies over the raw hash path
segment: `AB12` does not match the anchored regex `[0-9a-f]` four times, so
the claim demands a 400 response.  The code lowercases the segment before
testing it, accepts `ab12`, queries the store and answers 200, so the claim
fails on this request. -/
theorem C6_counterexample :
    hashRe "AB12" = false ∧
    skip_segments parseAllSponsor "AB12" none dbOne ["h1"] originConst ≠
      some (Response.badRequest "Hash prefix does not match format requirements.") := by
  decide

/-- Claim C6, amended: the format check applies to the lowercased hash path
segment.  For every request whose hash path segment, after lowercasing, does
not match the regex, the response is the 400 with the exact body, regardless
of the store and origin oracles (so produced before any store access and
with no origin fallback). -/
theorem C6_amended (parse : String → Option (List String)) (path : String)
    (categories : Option String) (db : List String → List SponsorTime)
    (iter : List String) (origin : String → String → String)
    (h : hashRe (toLowercase path) = false) :
    skip_segments parse path categories db iter origin =
      some (Response.badRequest "Hash prefix does not match format requirements.") := by
  unfold skip_segments
  simp [h]

/-- Witness for `C6_amended` at a concrete input: a three-character path. -/
theorem C6_amended_witness :
    skip_segments parseAllSponsor "fff" none dbOne ["h1"] originConst =
      some (Response.badRequest "Hash prefix does not match format requirements.") :=
  C6_amended parseAllSponsor "fff" none dbOne ["h1"] originConst (by decide)

/-- Claim C7, counterexample.  With the categories parameter `[]` the local
resolution indeed yields the empty result without consulting the store, but
the handler then treats the empty local result as a cache miss and relays
the origin body, so the client does not receive the empty result. -/
theorem C7_counterexample :
    find_skip_segments parseEmptyOrDefault (some "[]") dbOne ["h1"] = some [] ∧
    skip_segments parseEmptyOrDefault "ab12" (some "[]") dbOne ["h1"] originConst =
      some (Response.okOrigin "ORIGIN") ∧
    skip_segments parseEmptyOrDefault "ab12" (some "[]") dbOne ["h1"] originConst ≠
      some (Response.okJson []) := by
  decide

/-- Claim C7, amended: a categories parameter parsing to the empty list
yields the empty local result without any store query (the result is the
same for every store oracle), but the handler then falls back to the origin
service and relays its body — the client receives the origin response, not
the empty result. -/
theorem C7_amended (parse : String → Option (List String)) (s path : String)
    (db : List String → List SponsorTime) (iter : List String)
    (origin : String → String → String)
    (hparse : parse s = some []) (hpath : hashRe (toLowercase path) = true) :
    find_skip_segments parse (some s) db iter = some [] ∧
    skip_segments parse path (some s) db iter origin =
      some (Response.okOrigin (origin (toLowercase path) s)) := by
  have hres : find_skip_segments parse (some s) db iter = some [] := by
    unfold find_skip_segments
    simp [hparse]
  refine ⟨hres, ?_⟩
  unfold skip_segments
  simp [hpath, hres]

/-- Witness for `C7_amended` at a concrete input. -/
theorem C7_amended_witness :
    find_skip_segments parseEmptyOrDefault (some "[]") dbOne ["h1"] = some [] ∧
    skip_segments parseEmptyOrDefault "AB12" (some "[]") dbOne ["h1"] originConst =
      some (Response.okOrigin (originConst (toLowercase "AB12") "[]")) :=
  C7_amended parseEmptyOrDefault "[]" "AB12" dbOne ["h1"] originConst (by decide) (by decide)

/-! ## Claims about determinism and the uniqueness invariant -/

/-- Claim C8, counterexample.  The order of the Sponsor objects in the
result is the iteration order of `HashMap::into_values`, which Rust leaves
unspecified and which varies between hash map instances (randomized hash
seeds).  For the same two-video record set, two admissible iteration orders
of the same key set produce differently ordered outputs, so two applications
of the reconciler need not agree on the order of the Sponsor list. -/
theorem C8_counterexample :
    sorted_sponsors ["h1", "h2"] [rA, rC] ≠ sorted_sponsors ["h2", "h1"] [rA, rC] := by
  decide

/-- Claim C8, amended: the reconciler is a pure function of the record set
(in retrieval order) and the hash map iteration order, so two applications
with the same iteration order are identical; for any two iteration orders
that are permutations of each other the outputs are permutations of each
other — the same Sponsors with identical per-video segment lists, only the
order of the Sponsor objects in the result list may differ. -/
theorem C8_amended (results : List SponsorTime) (iter1 iter2 : List String)
    (h : List.Perm iter1 iter2) :
    List.Perm (sorted_sponsors iter1 results) (sorted_sponsors iter2 results) :=
  h.filterMap _

/-- Witness for `C8_amended` at a concrete input: the two iteration orders
of the key set of the two-video record set. -/
theorem C8_amended_witness :
    List.Perm (sorted_sponsors ["h1", "h2"] [rA, rC]) (sorted_sponsors ["h2", "h1"] [rA, rC]) :=
  C8_amended [rA, rC] ["h1", "h2"] ["h2", "h1"] (List.Perm.swap "h2" "h1" [])

/-- Pairwise distinctness of segment uuids. -/
def UuidDistinct (segs : List Segment) : Prop :=
  segs.Pairwise fun a b => a.uuid ≠ b.uuid

instance (segs : List Segment) : Decidable (UuidDistinct segs) :=
  inferInstanceAs (Decidable (segs.Pairwise _))

/-- A successful association-list lookup is a membership. -/
theorem mapGet_mem {m : List (String × Sponsor)} {k : String} {v : Sponsor}
    (h : mapGet m k = some v) : (k, v) ∈ m := by
  induction m with
  | nil => simp [mapGet] at h
  | cons kv rest ih =>
    obtain ⟨k0, v0⟩ := kv
    unfold mapGet at h
    split at h
    · next heq =>
      obtain rfl : v0 = v := by simpa using h
      exact heq ▸ List.mem_cons_self _ _
    · exact List.mem_cons_of_mem _ (ih h)

/-- Members of an updated association list are the written pair or old
members. -/
theorem mapSet_mem {m : List (String × Sponsor)} {k : String} {v : Sponsor}
    {kv : String × Sponsor} (h : kv ∈ mapSet m k v) : kv = (k, v) ∨ kv ∈ m := by
  induction m with
  | nil => simpa [mapSet] using h
  | cons kv0 rest ih =>
    obtain ⟨k0, v0⟩ := kv0
    unfold mapSet at h
    split at h
    · rcases List.mem_cons.mp h with h | h
      · exact Or.inl h
      · exact Or.inr (List.mem_cons_of_mem _ h)
    · rcases List.mem_cons.mp h with h | h
      · exact Or.inr (h ▸ List.mem_cons_self _ _)
      · rcases ih h with h | h
        · exact Or.inl h
        · exact Or.inr (List.mem_cons_of_mem _ h)

/-- Every Sponsor value in an updated map has distinct uuids if the old map
did and the written value does. -/
theorem mapSet_uuid_distinct {m : List (String × Sponsor)} {k : String} {v : Sponsor}
    (hm : ∀ kv ∈ m, UuidDistinct kv.2.segments) (hv : UuidDistinct v.segments) :
    ∀ kv ∈ mapSet m k v, UuidDistinct kv.2.segments := by
  intro kv hkv
  rcases mapSet_mem hkv with h | h
  · exact h ▸ hv
  · exact hm kv h

/-- One loop iteration of the reconciler preserves the uuid-distinctness of
every Sponsor in the map: the only way a segment is appended is behind the
`Vec::contains` guard, which compares by uuid. -/
theorem process_result_uuid_distinct (results : List SponsorTime)
    (m : List (String × Sponsor)) (r : SponsorTime)
    (hm : ∀ kv ∈ m, UuidDistinct kv.2.segments) :
    ∀ kv ∈ process_result results m r, UuidDistinct kv.2.segments := by
  unfold process_result
  dsimp only
  have hsp : UuidDistinct
      ((mapGet m r.hashed_video_id).getD
        { hash := r.hashed_video_id, video_id := r.video_id, segments := [] }).segments := by
    cases hget : mapGet m r.hashed_video_id with
    | none => simp [UuidDistinct]
    | some sp => simpa using hm (r.hashed_video_id, sp) (mapGet_mem hget)
  split
  · exact mapSet_uuid_distinct hm hsp
  · split
    · exact mapSet_uuid_distinct hm hsp
    · next best _ =>
      split
      · exact mapSet_uuid_distinct hm hsp
      · next hcon =>
        refine mapSet_uuid_distinct hm ?_
        refine List.pairwise_append.mpr ⟨hsp, List.pairwise_singleton _ _, ?_⟩
        intro a ha b hb
        obtain rfl : b = best := by simpa using hb
        intro hab
        apply hcon
        refine List.any_eq_true.mpr ⟨a, ha, ?_⟩
        simpa [segment_eq] using hab

/-- The reconciliation fold keeps every Sponsor of the map uuid-distinct,
whatever map it starts from. -/
theorem foldl_uuid_distinct (results : List SponsorTime) (l : List SponsorTime)
    (m : List (String × Sponsor)) (hm : ∀ kv ∈ m, UuidDistinct kv.2.segments) :
    ∀ kv ∈ l.foldl (process_result results) m, UuidDistinct kv.2.segments := by
  induction l generalizing m with
  | nil => simpa using hm
  | cons r rest ih => exact ih (process_result results m r) (process_result_uuid_distinct results m r hm)

/-- Every Sponsor built by the reconciliation loop has uuid-distinct
segments. -/
theorem reconcile_uuid_distinct (results : List SponsorTime) :
    ∀ kv ∈ reconcile results, UuidDistinct kv.2.segments :=
  foldl_uuid_distinct results results [] (by simp)

/-- Sorting the segments of a Sponsor preserves uuid-distinctness (the
sorted list is a permutation and the relation is symmetric). -/
theorem sort_segments_uuid_distinct {sp : Sponsor} (h : UuidDistinct sp.segments) :
    UuidDistinct (sort_segments sp).segments := by
  have hperm := List.perm_insertionSort segment_le sp.segments
  exact (hperm.pairwise_iff fun hxy => Ne.symm hxy).mpr h

/-- Claim C9, confirmed: for every record set and every hash map iteration
order, no two Segments in one resolved Sponsor share a uuid (the notion of
Segment equality used by the deduplication guard is uuid equality). -/
theorem C9 (results : List SponsorTime) (iter : List String) (sp : Sponsor)
    (h : sp ∈ sorted_sponsors iter results) :
    sp.segments.Pairwise fun a b => a.uuid ≠ b.uuid := by
  obtain ⟨k, -, hget⟩ := List.mem_filterMap.mp h
  have hmem := mapGet_mem hget
  unfold sorted_map at hmem
  obtain ⟨kv, hkv, heq⟩ := List.mem_map.mp hmem
  have hsp : sp = sort_segments kv.2 := by
    have := congrArg Prod.snd heq
    simpa using this.symm
  rw [hsp]
  exact sort_segments_uuid_distinct (reconcile_uuid_distinct results kv hkv)

/-- The Sponsor the pipeline produces for `h1` from the record set [rA]. -/
def spA : Sponsor := { hash := "h1", video_id := "videoA1", segments := [sA] }

/-- Witness for `C9` at a concrete input. -/
theorem C9_witness :
    spA ∈ sorted_sponsors ["h1"] [rA] ∧
    spA.segments.Pairwise fun a b => a.uuid ≠ b.uuid :=
  ⟨by decide, C9 [rA] ["h1"] spA (by decide)⟩

/-- Claim C10, confirmed: parsing of the categories parameter is partial.
When a categories string is supplied and the JSON parse of it fails, the
query resolution panics (modelled as `none`) instead of producing a 400 or
any result, and the panic propagates through the handler; only a missing
parameter is replaced by the default `[\x22sponsor\x22]` string before
parsing. -/
theorem C10 (parse : String → Option (List String)) (s path : String)
    (db : List String → List SponsorTime) (iter : List String)
    (origin : String → String → String)
    (hbad : parse s = none) (hpath : hashRe (toLowercase path) = true) :
    find_skip_segments parse (some s) db iter = none ∧
    skip_segments parse path (some s) db iter origin = none ∧
    find_skip_segments parse none db iter =
      find_skip_segments parse (some defaultCategories) db iter := by
  have hres : find_skip_segments parse (some s) db iter = none := by
    unfold find_skip_segments
    simp [hbad]
  refine ⟨hres, ?_, rfl⟩
  unfold skip_segments
  simp [hpath, hres]

/-- Witness for `C10` at a concrete input: a parse oracle rejecting every
string, on the lowercase path `ab12`. -/
theorem C10_witness :
    find_skip_segments parseFail (some "notjson") dbOne ["h1"] = none ∧
    skip_segments parseFail "ab12" (some "notjson") dbOne ["h1"] originConst = none ∧
    find_skip_segments parseFail none dbOne ["h1"] =
      find_skip_segments parseFail (some defaultCategories) dbOne ["h1"] :=
  C10 parseFail "notjson" "ab12" dbOne ["h1"] originConst rfl (by decide)

end SBM
